import Mathlib

/-!
Verification development for the tf-registry server (src/main.go).

The Go program is shallowly embedded: pure string manipulation
(Go's path/filepath joining and cleaning, JSON encoding) becomes Lean
functions on `String`/`List Char`; the s3-backed `fs.FS` storage handle
becomes an explicit record of functions; `http.ResponseWriter` becomes a
record threaded through the handlers; the chi router becomes a total
dispatch function on (method, path).
-/

namespace TfRegistry

/-! ## Path model: Go `path.Clean`, `filepath.Join` (unix separator) -/

/-- Split a character list on '/' into segments (possibly empty ones). -/
def splitSegsAux : List Char → List Char → List (List Char)
  | [], acc => [acc.reverse]
  | c :: rest, acc =>
    if c = '/' then acc.reverse :: splitSegsAux rest []
    else splitSegsAux rest (c :: acc)

/-- Split a string on '/' into its segments. `"a/b"` ↦ `["a","b"]`,
`"/a"` ↦ `["","a"]`, `""` ↦ `[""]`. -/
def splitSegs (s : String) : List String :=
  (splitSegsAux s.data []).map (fun l => ⟨l⟩)

/-- Join segments with '/' (Go `strings.Join(elems, "/")`). -/
def joinSegs : List String → String
  | [] => ""
  | [s] => s
  | s :: rest => s ++ "/" ++ joinSegs rest

/-- One step of Go `path.Clean`'s segment processing, on a stack of output
segments held most-recent-first. Empty and "." segments are dropped; ".."
pops a poppable segment, is dropped at the root of a rooted path, and is
kept at the front of a relative path. -/
def cleanStep (rooted : Bool) (out : List String) (seg : String) : List String :=
  if seg = "" ∨ seg = "." then out
  else if seg = ".." then
    match out with
    | [] => if rooted then [] else [".."]
    | top :: rest => if top = ".." then ".." :: top :: rest else rest
  else seg :: out

/-- Go `path.Clean` (equivalently `filepath.Clean` on unix): normalise a
slash-separated path by dropping empty and "." segments and resolving ".."
lexically; a rooted path keeps its leading '/', an emptied path becomes ".". -/
def pathClean (p : String) : String :=
  if p = "" then "." else
  let rooted : Bool := p.data.head? = some '/'
  let out := ((splitSegs p).foldl (cleanStep rooted) []).reverse
  let joined := joinSegs out
  if rooted then "/" ++ joined
  else if joined = "" then "." else joined

/-- Go `filepath.Join`: skip leading empty elements, join the rest
(including any later empty ones) with '/', then `Clean`. -/
def filepathJoin : List String → String
  | [] => ""
  | e :: rest => if e = "" then filepathJoin rest else pathClean (joinSegs (e :: rest))

/-- Go `strings.TrimPrefix` wrapped as in `http.StripPrefix`: `some` of the
remainder when `pre` heads `s`, otherwise `none`. -/
def listStripPre : List Char → List Char → Option (List Char)
  | [], s => some s
  | _ :: _, [] => none
  | p :: ps, c :: cs => if p = c then listStripPre ps cs else none

/-- String-level front trimming: `some rest` iff `s = pre ++ rest`. -/
def stripPre (pre s : String) : Option String :=
  (listStripPre pre.data s.data).map (fun l => ⟨l⟩)

/-- A "clean" path segment: non-empty, slash-free, and not one of the
special segments "." and "..". Identity fields of this shape pass through
`filepathJoin` untouched. -/
def cleanSeg (s : String) : Prop :=
  s ≠ "" ∧ '/' ∉ s.data ∧ s ≠ "." ∧ s ≠ ".."

instance : DecidablePred cleanSeg := fun s => by
  unfold cleanSeg; infer_instance

/-! ## Go `encoding/json` serialisation (as produced by `json.NewEncoder(w).Encode`)

Only the fragment exercised by the program is modelled: structs with string
fields, slices (a nil slice — which is the only way this program produces an
empty one — encodes as `null`), and `map[string]string` (keys sorted). The
encoder escapes `"`, `\\`, control characters and, HTML-safely, `<`, `>`,
`&` (and U+2028/U+2029); it terminates the stream with a newline. -/

/-- Lower-case hexadecimal digit. -/
def hexDigit (n : Nat) : Char :=
  if n < 10 then Char.ofNat (48 + n) else Char.ofNat (87 + n)

/-- Escape of a single character inside a Go JSON string literal. -/
def jsonEscapeChar (c : Char) : String :=
  if c = '"' then "\\\""
  else if c = '\\' then "\\\\"
  else if c = '\n' then "\\n"
  else if c = '\r' then "\\r"
  else if c = '\t' then "\\t"
  else if c = '<' ∨ c = '>' ∨ c = '&' ∨ c.toNat < 32 then
    "\\u00" ++ String.singleton (hexDigit (c.toNat / 16)) ++
      String.singleton (hexDigit (c.toNat % 16))
  else if c.toNat = 8232 then "\\u2028"
  else if c.toNat = 8233 then "\\u2029"
  else String.singleton c

/-- Go JSON string literal for `s`. -/
def jsonStr (s : String) : String :=
  "\"" ++ String.join (s.data.map jsonEscapeChar) ++ "\""

/-- Join pre-rendered JSON values with commas. -/
def commaJoin : List String → String
  | [] => ""
  | [s] => s
  | s :: rest => s ++ "," ++ commaJoin rest

/-- Insertion into an association list sorted by key (Go marshals maps with
keys in ascending order; this program only builds singleton maps). -/
def insertByKey (kv : String × String) : List (String × String) → List (String × String)
  | [] => [kv]
  | h :: t => if kv.1 ≤ h.1 then kv :: h :: t else h :: insertByKey kv t

/-- Sort an association list by key. -/
def sortByKey (l : List (String × String)) : List (String × String) :=
  l.foldr insertByKey []

/-- Encoding of a `map[string]string` value. -/
def encodeStringMap (m : List (String × String)) : String :=
  "\x7b" ++ commaJoin ((sortByKey m).map (fun kv => jsonStr kv.1 ++ ":" ++ jsonStr kv.2)) ++ "\x7d"

/-! ## Data model (src/main.go response structs and module identity) -/

/-- `ServiceDiscoveryResp`: the service discovery response struct
(`ModulesV1` carries json tag `modules.v1`). -/
structure ServiceDiscoveryResp where
  ModulesV1 : String
deriving DecidableEq, Repr

/-- `ModuleVersions`: a list of module version maps (json tag `versions`);
each element models one `map[string]string` value. -/
structure ModuleVersions where
  Versions : List (List (String × String))
deriving DecidableEq, Repr

/-- `ModuleVersionsResp`: the module versions response struct (json tag
`modules`). -/
structure ModuleVersionsResp where
  Modules : List ModuleVersions
deriving DecidableEq, Repr

/-- `Module`: a terraform module identity, built per request from the URL
parameters. -/
structure Module where
  Namespace : String
  Name : String
  Provider : String
  Version : String
deriving DecidableEq, Repr

/-- JSON encoding of `ServiceDiscoveryResp`. -/
def encodeServiceDiscoveryResp (s : ServiceDiscoveryResp) : String :=
  "\x7b\"modules.v1\":" ++ jsonStr s.ModulesV1 ++ "\x7d"

/-- JSON encoding of `ModuleVersions`. In the program the `Versions` slice
is nil exactly when no entry was appended, and a nil slice encodes as
`null`. -/
def encodeModuleVersions (m : ModuleVersions) : String :=
  "\x7b\"versions\":" ++
    (match m.Versions with
     | [] => "null"
     | vs => "[" ++ commaJoin (vs.map encodeStringMap) ++ "]") ++ "\x7d"

/-- JSON encoding of `ModuleVersionsResp` (nil `Modules` slice ↦ `null`). -/
def encodeModuleVersionsResp (r : ModuleVersionsResp) : String :=
  "\x7b\"modules\":" ++
    (match r.Modules with
     | [] => "null"
     | ms => "[" ++ commaJoin (ms.map encodeModuleVersions) ++ "]") ++ "\x7d"

/-! ## Storage abstraction (the `fs.FS` handle `s3fsys`)

`readDir` is `fs.ReadDir`: the listing of immediate child entry names, or
an error message; `readFile` is the byte content (modelled as a string of
bytes) of the object at a key, `none` when no such object exists. -/

/-- The storage backend handle. -/
structure FSys where
  readDir : String → Except String (List String)
  readFile : String → Option String

/-! ## `http.ResponseWriter` model

Headers live in a mutable map; the first `WriteHeader` (explicit, or
implicit on the first `Write`) commits the status code and a snapshot of
the header map — later header mutations do not affect the sent headers,
and later `WriteHeader` calls are ignored. -/

/-- State of a response writer. -/
structure RespWriter where
  headerMap : List (String × String)
  sentHeaders : Option (List (String × String))
  status : Option Nat
  body : String
deriving DecidableEq, Repr

/-- Replace the value of header `k` (Go `Header().Set`). -/
def headersSet (hs : List (String × String)) (k v : String) : List (String × String) :=
  hs.filter (fun kv => kv.1 ≠ k) ++ [(k, v)]

/-- Look up header `k`. -/
def headersGet (hs : List (String × String)) (k : String) : Option String :=
  (hs.find? (fun kv => kv.1 = k)).map (fun kv => kv.2)

/-- A fresh writer. -/
def RespWriter.init : RespWriter := ⟨[], none, none, ""⟩

/-- `w.Header().Set(k, v)`. -/
def RespWriter.headerSet (w : RespWriter) (k v : String) : RespWriter :=
  { w with headerMap := headersSet w.headerMap k v }

/-- `w.WriteHeader(code)`: first call commits status and headers. -/
def RespWriter.writeHeader (w : RespWriter) (code : Nat) : RespWriter :=
  if w.status.isSome then w
  else { w with status := some code, sentHeaders := some w.headerMap }

/-- `w.Write(s)`: implicit `WriteHeader(200)` on first write, then append
to the body. -/
def RespWriter.write (w : RespWriter) (s : String) : RespWriter :=
  let w2 := w.writeHeader 200
  { w2 with body := w2.body ++ s }

/-- The status actually sent (200 when the handler never set one). -/
def RespWriter.finalStatus (w : RespWriter) : Nat := w.status.getD 200

/-- The headers actually sent. -/
def RespWriter.finalHeaders (w : RespWriter) : List (String × String) :=
  w.sentHeaders.getD w.headerMap

/-- Go `http.Error(w, msg, code)`: force a plain-text content type, write
the status, then the message and a newline. (The `Content-Length` deletion
it also performs is irrelevant here: these handlers never set one.) -/
def httpError (w : RespWriter) (msg : String) (code : Nat) : RespWriter :=
  ((((w.headerSet "Content-Type" "text/plain; charset=utf-8").headerSet
      "X-Content-Type-Options" "nosniff").writeHeader code).write (msg ++ "\n"))

/-- Go `http.NotFound(w, r)`. -/
def httpNotFound (w : RespWriter) : RespWriter :=
  httpError w "404 page not found" 404

/-! ## The program's handlers (src/main.go) -/

/-- `ModuleBasePath`: the base v1 api path for the terraform registry. -/
def ModuleBasePath : String := "/terraform/modules/v1"

/-- `getModuleVersions(modPath)`: list the child entries of the module path
in storage and wrap each entry name as the map `{"version": name}`, in
listing order; propagate the listing error otherwise. -/
def getModuleVersions (fsys : FSys) (modPath : String) :
    Except String ModuleVersionsResp :=
  match fsys.readDir modPath with
  | .error e => .error e
  | .ok versionDirs =>
    .ok ⟨[⟨versionDirs.map (fun v => [("version", v)])⟩]⟩

/-- `httpGetServiceDiscovery`: write the static service discovery response
as JSON. -/
def httpGetServiceDiscovery : RespWriter :=
  (RespWriter.init.headerSet "Content-Type" "application/json").write
    (encodeServiceDiscoveryResp ⟨ModuleBasePath⟩ ++ "\n")

/-- The module path resolver (src/main.go line 86, named
`resolveModulePath` by the spec): `filepath.Join(prefix, namespace, name,
provider)`. -/
def resolveModulePath (pfx ns n p : String) : String :=
  filepathJoin [pfx, ns, n, p]

/-- `httpGetVersions`: join the configured prefix with the identity's
namespace/name/provider, list versions there, and encode the result.
On a listing error the handler calls `http.Error` but does not return, so
it still sets the (now ineffective) JSON content type and encodes the
zero-value response into the already-started 500 body. -/
def httpGetVersions (fsys : FSys) (pfx : String) (m : Module) : RespWriter :=
  let modPath := resolveModulePath pfx m.Namespace m.Name m.Provider
  match getModuleVersions fsys modPath with
  | .error e =>
    let w := httpError RespWriter.init e 500
    (w.headerSet "Content-Type" "application/json").write
      (encodeModuleVersionsResp ⟨[]⟩ ++ "\n")
  | .ok modVers =>
    (RespWriter.init.headerSet "Content-Type" "application/json").write
      (encodeModuleVersionsResp modVers ++ "\n")

/-- `httpGetDownloadURL`: join the identity's fields under `/download`,
announce the result in the `X-Terraform-Get` header and reply 204 with an
empty body. The handler takes no storage handle: it performs no I/O. -/
def httpGetDownloadURL (m : Module) : RespWriter :=
  let tfGetHeader := filepathJoin
    ["/download", m.Namespace, m.Name, m.Provider, m.Version, m.Name ++ ".tgz"]
  (RespWriter.init.headerSet "X-Terraform-Get" tfGetHeader).writeHeader 204

/-- `httpGetModule`: force the protocol content headers, then
`http.StripPrefix("/download/", http.FileServer(http.FS(s3fsys)))`.
The file server re-roots the stripped path at `/`, cleans it, redirects an
explicit `/index.html` request, and opens the key with the leading slash
trimmed; a present key is served with status 200, an absent one yields the
generic 404. (Directory listing/redirect behaviour of `http.FileServer`
is outside every claim and keys are modelled as file-or-absent.) -/
def httpGetModule (fsys : FSys) (reqPath : String) : RespWriter :=
  let w := (RespWriter.init.headerSet "Content-Encoding"
    "application/octet-stream").headerSet "Content-Type" "application/x-gzip"
  match stripPre "/download/" reqPath with
  | none => httpNotFound w
  | some p =>
    let upath := "/" ++ p
    if ("/index.html").data.isSuffixOf upath.data then
      (w.headerSet "Location" "./").writeHeader 301
    else
      let name := pathClean upath
      let key := if name = "/" then "." else (stripPre "/" name).getD name
      match fsys.readFile key with
      | some contents => w.write contents
      | none => httpNotFound w

/-! ## Router (chi routes and middleware in `main`) -/

/-- ASCII lower-casing of one character. -/
def asciiLowerChar (c : Char) : Char :=
  if 'A' ≤ c ∧ c ≤ 'Z' then Char.ofNat (c.toNat + 32) else c

/-- ASCII lower-casing of a string; `lowerStr a = lowerStr b` models Go's
`strings.EqualFold a b` for the ASCII paths involved here. -/
def lowerStr (s : String) : String := ⟨s.data.map asciiLowerChar⟩

/-- The process-wide configuration (the `-bucket` and `-prefix` flags; the
other flags play no part in request handling). -/
structure Config where
  bucket : String
  pfx : String
deriving DecidableEq, Repr

/-- Which registered handler a request path selects. -/
inductive RouteTarget where
  | discovery
  | versions (m : Module)
  | download (m : Module)
  | moduleGet
  | noMatch
deriving DecidableEq, Repr

/-- Path matching for the five registered routes. Parameter segments are
single path segments (taken non-empty); `/download/*` is a wildcard. -/
def matchRoute (path : String) : RouteTarget :=
  if path = "/" then .discovery
  else if path = "/.well-known/terraform.json" then .discovery
  else
    match stripPre (ModuleBasePath ++ "/") path with
    | some rest =>
      match splitSegs rest with
      | [ns, n, p, "versions"] =>
        if ns = "" ∨ n = "" ∨ p = "" then .noMatch
        else .versions ⟨ns, n, p, ""⟩
      | [ns, n, p, v, "download"] =>
        if ns = "" ∨ n = "" ∨ p = "" ∨ v = "" then .noMatch
        else .download ⟨ns, n, p, v⟩
      | _ => .noMatch
    | none =>
      if (stripPre "/download/" path).isSome then .moduleGet else .noMatch

/-- Routing decision including the middleware: `Heartbeat("/is_alive")`
answers GET/HEAD on the heartbeat path itself (no registered handler runs),
`GetHead` routes a HEAD request to the matching GET handler, and chi
invokes a handler only when the (possibly rewritten) method is GET.
`.noMatch` means no registered handler is dispatched. -/
def dispatchTarget (method path : String) : RouteTarget :=
  if (method = "GET" ∨ method = "HEAD") ∧ lowerStr path = "/is_alive" then
    .noMatch
  else
    let routeMethod := if method = "HEAD" then "GET" else method
    match matchRoute path with
    | .noMatch => .noMatch
    | t => if routeMethod = "GET" then t else .noMatch

/-- Invoke the handler a route target names. -/
def invokeTarget (cfg : Config) (fsys : FSys) (path : String) :
    RouteTarget → RespWriter
  | .discovery => httpGetServiceDiscovery
  | .versions m => httpGetVersions fsys cfg.pfx m
  | .download m => httpGetDownloadURL m
  | .moduleGet => httpGetModule fsys path
  | .noMatch => RespWriter.init

/-- The served application: heartbeat middleware, then routing. A path
with no matching route gets chi's `http.NotFound`; a matching path with a
non-GET (after `GetHead` rewriting) method gets chi's empty 405. -/
def app (cfg : Config) (fsys : FSys) (method path : String) : RespWriter :=
  if (method = "GET" ∨ method = "HEAD") ∧ lowerStr path = "/is_alive" then
    ((RespWriter.init.headerSet "Content-Type" "text/plain").writeHeader 200).write "."
  else
    match dispatchTarget method path with
    | .noMatch =>
      if matchRoute path = .noMatch then httpNotFound RespWriter.init
      else RespWriter.init.writeHeader 405
    | t => invokeTarget cfg fsys path t

/-- The storage path of an artifact, from the repository README's
documented layout
`s3://<bucket>/[optional_prefix]/<ns>/<name>/<provider>/<version>/<name>.tgz`
(the spec's `resolveVersionPath` joined with `resolveArtifactFilename`). -/
def artifactStoragePath (pfx ns n p v : String) : String :=
  filepathJoin [pfx, ns, n, p, v, n ++ ".tgz"]

/-! ## Concrete storage backends used to instantiate the theorems -/

/-- A backend with no objects at all: every listing fails with a
not-found error and every read misses. -/
def fsysAbsent : FSys :=
  ⟨fun p => .error ("open " ++ p ++ ": file does not exist"), fun _ => none⟩

/-- A backend whose `acme/vpc/aws` directory holds exactly the version
directories `1.0.0`, `1.1.0`, `2.0.0`. -/
def fsysThree : FSys :=
  ⟨fun p => if p = "acme/vpc/aws" then .ok ["1.0.0", "1.1.0", "2.0.0"]
            else .error ("open " ++ p ++ ": file does not exist"),
   fun _ => none⟩

/-- A backend whose module directory exists but has no child entries. -/
def fsysEmptyDir : FSys := ⟨fun _ => .ok [], fun _ => none⟩

/-- A backend holding one artifact at the unprefixed key. -/
def fsysArtifact : FSys :=
  ⟨fun p => .error ("open " ++ p ++ ": file does not exist"),
   fun k => if k = "acme/vpc/aws/1.0.0/vpc.tgz" then some "GZBYTES" else none⟩

/-- A backend laid out as the README documents for `-prefix modules`: the
artifact lives under the configured prefix. -/
def fsysPrefixed : FSys :=
  ⟨fun p => .error ("open " ++ p ++ ": file does not exist"),
   fun k => if k = "modules/acme/vpc/aws/1.0.0/vpc.tgz" then some "GZBYTES" else none⟩

/-! ## Lemmas about the path model -/

theorem strAppend_assoc (a b c : String) : a ++ b ++ c = a ++ (b ++ c) :=
  String.ext (by simp [String.data_append])

theorem splitSegsAux_append (cs : List Char) (h : '/' ∉ cs) :
    ∀ (l acc : List Char),
      splitSegsAux (cs ++ l) acc = splitSegsAux l (cs.reverse ++ acc) := by
  induction cs with
  | nil => intro l acc; simp
  | cons c cs ih =>
    intro l acc
    have hc : c ≠ '/' := fun hc => h (hc ▸ List.mem_cons_self c cs)
    have h2 : '/' ∉ cs := fun hm => h (List.mem_cons_of_mem _ hm)
    have hstep : splitSegsAux ((c :: cs) ++ l) acc = splitSegsAux (cs ++ l) (c :: acc) := by
      rw [List.cons_append]
      simp only [splitSegsAux]
      rw [if_neg hc]
    rw [hstep, ih h2]
    simp [List.append_assoc]

theorem splitSegsAux_slash (l acc : List Char) :
    splitSegsAux ('/' :: l) acc = acc.reverse :: splitSegsAux l [] := by
  simp [splitSegsAux]

theorem joinSegs_cons_cons (s t : String) (rest : List String) :
    joinSegs (s :: t :: rest) = s ++ "/" ++ joinSegs (t :: rest) := rfl

theorem data_joinSegs_cons_cons (s t : String) (rest : List String) :
    (joinSegs (s :: t :: rest)).data = s.data ++ '/' :: (joinSegs (t :: rest)).data := by
  rw [joinSegs_cons_cons, strAppend_assoc, String.data_append, String.data_append]
  rfl

theorem splitSegs_joinSegs :
    ∀ (l : List String), l ≠ [] → (∀ s ∈ l, '/' ∉ s.data) →
      splitSegs (joinSegs l) = l := by
  intro l
  induction l with
  | nil => intro h; exact absurd rfl h
  | cons s rest ih =>
    intro _ hns
    have hs : '/' ∉ s.data := hns s (List.mem_cons_self s rest)
    cases rest with
    | nil =>
      show splitSegs s = [s]
      unfold splitSegs
      have : s.data = s.data ++ [] := by simp
      rw [this, splitSegsAux_append s.data hs [] []]
      simp [splitSegsAux]
    | cons t rest2 =>
      have hrest : ∀ x ∈ t :: rest2, '/' ∉ x.data :=
        fun x hx => hns x (List.mem_cons_of_mem _ hx)
      unfold splitSegs
      rw [data_joinSegs_cons_cons, splitSegsAux_append s.data hs, splitSegsAux_slash]
      simp only [List.map_cons, List.append_nil, List.reverse_reverse]
      have ihres := ih (by simp) hrest
      unfold splitSegs at ihres
      rw [ihres]

theorem foldl_cleanStep (rooted : Bool) :
    ∀ (l acc : List String), (∀ s ∈ l, s ≠ "" ∧ s ≠ "." ∧ s ≠ "..") →
      l.foldl (cleanStep rooted) acc = l.reverse ++ acc := by
  intro l
  induction l with
  | nil => intro acc _; simp
  | cons s rest ih =>
    intro acc h
    have hs := h s (List.mem_cons_self s rest)
    have hrest : ∀ x ∈ rest, x ≠ "" ∧ x ≠ "." ∧ x ≠ ".." :=
      fun x hx => h x (List.mem_cons_of_mem _ hx)
    have hstep : cleanStep rooted acc s = s :: acc := by
      unfold cleanStep
      rw [if_neg (by simp [hs.1, hs.2.1]), if_neg hs.2.2]
    rw [List.foldl_cons, hstep, ih (s :: acc) hrest]
    simp

theorem joinSegs_data_head (s : String) (rest : List String) :
    ∃ t, (joinSegs (s :: rest)).data = s.data ++ t := by
  cases rest with
  | nil => exact ⟨[], by simp [joinSegs]⟩
  | cons t rest2 =>
    exact ⟨'/' :: (joinSegs (t :: rest2)).data, data_joinSegs_cons_cons s t rest2⟩

theorem joinSegs_ne_empty (s : String) (rest : List String) (hs : s ≠ "") :
    joinSegs (s :: rest) ≠ "" := by
  obtain ⟨t, ht⟩ := joinSegs_data_head s rest
  intro h0
  apply hs
  apply String.ext
  have : (joinSegs (s :: rest)).data = [] := by rw [h0]
  rw [ht] at this
  exact List.append_eq_nil.mp this |>.1

theorem pathClean_joinSegs (l : List String) (hne : l ≠ [])
    (hcl : ∀ s ∈ l, cleanSeg s) : pathClean (joinSegs l) = joinSegs l := by
  obtain ⟨s, rest, rfl⟩ : ∃ s rest, l = s :: rest := by
    cases l with
    | nil => exact absurd rfl hne
    | cons s rest => exact ⟨s, rest, rfl⟩
  have hs := hcl s (List.mem_cons_self s rest)
  have hemp : joinSegs (s :: rest) ≠ "" := joinSegs_ne_empty s rest hs.1
  have hrooted : ¬((joinSegs (s :: rest)).data.head? = some '/') := by
    obtain ⟨t, ht⟩ := joinSegs_data_head s rest
    rw [ht]
    cases hsd : s.data with
    | nil => exact absurd (String.ext hsd) hs.1
    | cons c cs =>
      simp only [List.cons_append, List.head?_cons, Option.some.injEq]
      intro hc
      exact hs.2.1 (by rw [hsd, hc]; exact List.mem_cons_self '/' cs)
  have hsplit : splitSegs (joinSegs (s :: rest)) = s :: rest :=
    splitSegs_joinSegs (s :: rest) (by simp) (fun x hx => (hcl x hx).2.1)
  have hfold := foldl_cleanStep false (s :: rest) []
    (fun x hx => ⟨(hcl x hx).1, (hcl x hx).2.2.1, (hcl x hx).2.2.2⟩)
  unfold pathClean
  rw [if_neg hemp]
  simp only [decide_eq_false hrooted, hsplit, hfold, if_false, Bool.false_eq_true,
    List.append_nil, List.reverse_reverse, if_neg hemp]

theorem joinSegs_append :
    ∀ (a b : List String), a ≠ [] → b ≠ [] →
      joinSegs (a ++ b) = joinSegs a ++ "/" ++ joinSegs b := by
  intro a
  induction a with
  | nil => intro b h; exact absurd rfl h
  | cons s rest ih =>
    intro b _ hb
    cases rest with
    | nil =>
      cases b with
      | nil => exact absurd rfl hb
      | cons t r => rfl
    | cons t r2 =>
      have step := ih b (by simp) hb
      rw [List.cons_append] at step
      rw [List.cons_append, List.cons_append, joinSegs_cons_cons, step]
      simp [joinSegs_cons_cons, strAppend_assoc]

theorem listStripPre_append : ∀ (p r : List Char), listStripPre p (p ++ r) = some r := by
  intro p
  induction p with
  | nil => intro r; rfl
  | cons c cs ih => intro r; simp [listStripPre, ih]

theorem stripPre_append (pre rest : String) : stripPre pre (pre ++ rest) = some rest := by
  unfold stripPre
  rw [String.data_append, listStripPre_append]
  rfl

theorem filepathJoin_cons_empty (rest : List String) :
    filepathJoin ("" :: rest) = filepathJoin rest := by
  simp [filepathJoin]

theorem filepathJoin_cons_ne (e : String) (rest : List String) (he : e ≠ "") :
    filepathJoin (e :: rest) = pathClean (joinSegs (e :: rest)) := by
  simp [filepathJoin, he]

theorem filepathJoin_clean (e : String) (rest : List String)
    (hcl : ∀ s ∈ e :: rest, cleanSeg s) :
    filepathJoin (e :: rest) = joinSegs (e :: rest) := by
  rw [filepathJoin_cons_ne e rest (hcl e (List.mem_cons_self e rest)).1]
  exact pathClean_joinSegs _ (by simp) hcl

/-! ## Claim theorems -/

/-- C1: the redirect value minus its `/download/` root is exactly the key
the module content server reads, but for the configured prefix `modules`
that key is not the artifact's documented storage path — the download
handler never joins the prefix, so content stored per the README layout
yields a 404 (the claimed equality with the prefixed storage path holds
only for an empty prefix). -/
theorem downloadPathIgnoresConfiguredRoot :
    headersGet (httpGetDownloadURL ⟨"acme", "vpc", "aws", "1.0.0"⟩).finalHeaders
        "X-Terraform-Get" = some "/download/acme/vpc/aws/1.0.0/vpc.tgz" ∧
    stripPre "/download/" "/download/acme/vpc/aws/1.0.0/vpc.tgz" =
      some "acme/vpc/aws/1.0.0/vpc.tgz" ∧
    (httpGetModule fsysArtifact "/download/acme/vpc/aws/1.0.0/vpc.tgz").body = "GZBYTES" ∧
    artifactStoragePath "" "acme" "vpc" "aws" "1.0.0" = "acme/vpc/aws/1.0.0/vpc.tgz" ∧
    artifactStoragePath "modules" "acme" "vpc" "aws" "1.0.0" =
      "modules/acme/vpc/aws/1.0.0/vpc.tgz" ∧
    ("acme/vpc/aws/1.0.0/vpc.tgz" : String) ≠ "modules/acme/vpc/aws/1.0.0/vpc.tgz" ∧
    (httpGetModule fsysPrefixed "/download/acme/vpc/aws/1.0.0/vpc.tgz").finalStatus = 404 :=
  ⟨rfl, rfl, rfl, rfl, rfl, by decide, rfl⟩

/-- C2: when the listing of the module path returns exactly the entries
`1.0.0`, `1.1.0`, `2.0.0` (in whatever order the backend lists them),
`getModuleVersions` succeeds with those identifiers in listing order, each
exactly once and each wrapped as a `version` map, and the JSON body wraps
each as `{"version": "<id>"}`. -/
theorem getModuleVersions_threeEntries (fsys : FSys) (modPath : String)
    (l : List String) (hread : fsys.readDir modPath = .ok l)
    (hperm : l.Perm ["1.0.0", "1.1.0", "2.0.0"]) :
    getModuleVersions fsys modPath =
      .ok ⟨[⟨l.map (fun v => [("version", v)])⟩]⟩ ∧
    l.count "1.0.0" = 1 ∧ l.count "1.1.0" = 1 ∧ l.count "2.0.0" = 1 ∧
    (l = ["1.0.0", "1.1.0", "2.0.0"] →
      encodeModuleVersionsResp ⟨[⟨l.map (fun v => [("version", v)])⟩]⟩ ++ "\n" =
        "\x7b\"modules\":[\x7b\"versions\":[\x7b\"version\":\"1.0.0\"\x7d,\x7b\"version\":\"1.1.0\"\x7d,\x7b\"version\":\"2.0.0\"\x7d]\x7d]\x7d\n") := by
  refine ⟨?_, ?_, ?_, ?_, ?_⟩
  · simp [getModuleVersions, hread]
  · rw [hperm.count_eq]; decide
  · rw [hperm.count_eq]; decide
  · rw [hperm.count_eq]; decide
  · intro hl; subst hl; rfl

/-- C2 witness: the three-version backend produces exactly the three
wrapped identifiers in listing order. -/
theorem getModuleVersions_threeEntries_witness :
    getModuleVersions fsysThree "acme/vpc/aws" =
      .ok ⟨[⟨[[("version", "1.0.0")], [("version", "1.1.0")], [("version", "2.0.0")]]⟩]⟩ :=
  (getModuleVersions_threeEntries fsysThree "acme/vpc/aws"
    ["1.0.0", "1.1.0", "2.0.0"] rfl (by decide)).1

/-- C3: on a missing module subtree `getModuleVersions` fails with the
backend's not-found error, and the handler answers 500 — but because it
does not return after `http.Error`, the body is the plain-text error
message *followed by* the JSON encoding of the zero-value response, not
the error message alone (the missing `return` is the code bug). -/
theorem httpGetVersions_missingModule :
    getModuleVersions fsysAbsent "acme/vpc/aws" =
      .error "open acme/vpc/aws: file does not exist" ∧
    (httpGetVersions fsysAbsent "" ⟨"acme", "vpc", "aws", ""⟩).finalStatus = 500 ∧
    headersGet (httpGetVersions fsysAbsent "" ⟨"acme", "vpc", "aws", ""⟩).finalHeaders
      "Content-Type" = some "text/plain; charset=utf-8" ∧
    (httpGetVersions fsysAbsent "" ⟨"acme", "vpc", "aws", ""⟩).body =
      "open acme/vpc/aws: file does not exist\n\x7b\"modules\":null\x7d\n" ∧
    (httpGetVersions fsysAbsent "" ⟨"acme", "vpc", "aws", ""⟩).body ≠
      "open acme/vpc/aws: file does not exist\n" :=
  ⟨rfl, rfl, rfl, rfl, by decide⟩

/-- C4: for the identity (acme, vpc, aws, 1.0.0) the download locator
responds 204 with `X-Terraform-Get: /download/acme/vpc/aws/1.0.0/vpc.tgz`
and an empty body, for every configuration and every storage backend (the
handler takes no storage handle at all), and it succeeds with 204 and an
empty body for every identity. -/
theorem locateDownload_acmeVpc (cfg : Config) (fsys : FSys) :
    (app cfg fsys "GET" "/terraform/modules/v1/acme/vpc/aws/1.0.0/download").finalStatus = 204 ∧
    headersGet (app cfg fsys "GET"
        "/terraform/modules/v1/acme/vpc/aws/1.0.0/download").finalHeaders "X-Terraform-Get" =
      some "/download/acme/vpc/aws/1.0.0/vpc.tgz" ∧
    (app cfg fsys "GET" "/terraform/modules/v1/acme/vpc/aws/1.0.0/download").body = "" ∧
    (∀ m : Module, (httpGetDownloadURL m).finalStatus = 204 ∧ (httpGetDownloadURL m).body = "") := by
  refine ⟨?_, ?_, ?_, fun _ => ⟨?_, ?_⟩⟩ <;> rfl

/-- C8: the discovery endpoints at `/` and `/.well-known/terraform.json`
return the same response under any two configurations and storage
backends, and the body is exactly the static document
`{"modules.v1":"/terraform/modules/v1"}` (plus the encoder's newline). -/
theorem discovery_config_independent (c1 c2 : Config) (f1 f2 : FSys) :
    app c1 f1 "GET" "/" = app c2 f2 "GET" "/" ∧
    app c1 f1 "GET" "/.well-known/terraform.json" =
      app c2 f2 "GET" "/.well-known/terraform.json" ∧
    (app c1 f1 "GET" "/").body = (app c1 f1 "GET" "/.well-known/terraform.json").body ∧
    (app c1 f1 "GET" "/").body = "\x7b\"modules.v1\":\"/terraform/modules/v1\"\x7d\n" := by
  refine ⟨?_, ?_, ?_, ?_⟩ <;> rfl

/-- C9: a namespace carrying `../` traversal segments drives the resolved
module path outside the configured prefix subtree — the resolver passes
the field through with no sanitisation, so the result neither starts with
`modules/` nor stays below the prefix. -/
theorem resolveModulePath_traversal :
    ∃ ns n p : String,
      '/' ∈ ns.data ∧
      resolveModulePath "modules" ns n p = "../x/a/b" ∧
      ¬ (("modules/").data.isPrefixOf (resolveModulePath "modules" ns n p).data = true) :=
  ⟨"../../x", "a", "b", by decide, by decide, by decide⟩

/-- C10: a module path whose listing succeeds with zero child entries
produces a successful response holding exactly one module entry whose
versions list is empty (encoded as JSON `null`, the image of Go's nil
slice). -/
theorem getModuleVersions_emptyListing (fsys : FSys) (modPath : String)
    (h : fsys.readDir modPath = .ok []) :
    getModuleVersions fsys modPath = .ok ⟨[⟨[]⟩]⟩ ∧
    encodeModuleVersionsResp ⟨[⟨[]⟩]⟩ = "\x7b\"modules\":[\x7b\"versions\":null\x7d]\x7d" := by
  refine ⟨?_, rfl⟩
  simp [getModuleVersions, h]

/-- C10 witness: the empty-directory backend. -/
theorem getModuleVersions_emptyListing_witness :
    getModuleVersions fsysEmptyDir "acme/vpc/aws" = .ok ⟨[⟨[]⟩]⟩ :=
  (getModuleVersions_emptyListing fsysEmptyDir "acme/vpc/aws" rfl).1

/-- C5 counterexample: for the configured prefix "." and the valid triple
(a, b, c), `filepath.Join` cleans the path, so the result is not
`prefix/namespace/name/provider`. -/
theorem resolveModulePath_dot_counterexample :
    cleanSeg "a" ∧ cleanSeg "b" ∧ cleanSeg "c" ∧
    resolveModulePath "." "a" "b" "c" = "a/b/c" ∧
    resolveModulePath "." "a" "b" "c" ≠ "." ++ "/" ++ "a" ++ "/" ++ "b" ++ "/" ++ "c" :=
  ⟨by decide, by decide, by decide, rfl, by decide⟩

/-- C5 (amended): for clean identity fields and a prefix that is empty or
itself a slash-join of clean segments, `resolveModulePath` — a pure
function, hence deterministic — returns exactly
`prefix/namespace/name/provider`, the prefix segment omitted when the
prefix is empty. -/
theorem resolveModulePath_spec (pfx ns n p : String) (hns : cleanSeg ns)
    (hn : cleanSeg n) (hp : cleanSeg p)
    (hpfx : pfx = "" ∨ ∃ segs, segs ≠ [] ∧ (∀ s ∈ segs, cleanSeg s) ∧ pfx = joinSegs segs) :
    resolveModulePath pfx ns n p =
      if pfx = "" then ns ++ "/" ++ n ++ "/" ++ p
      else pfx ++ "/" ++ ns ++ "/" ++ n ++ "/" ++ p := by
  have htriple : ∀ s ∈ [ns, n, p], cleanSeg s := by
    intro s hs
    simp only [List.mem_cons, List.not_mem_nil, or_false] at hs
    rcases hs with rfl | rfl | rfl
    · exact hns
    · exact hn
    · exact hp
  rcases hpfx with rfl | ⟨segs, hsne, hscl, rfl⟩
  · rw [if_pos rfl]
    show filepathJoin ("" :: [ns, n, p]) = _
    rw [filepathJoin_cons_empty, filepathJoin_clean ns [n, p] htriple]
    apply String.ext
    simp [joinSegs, String.data_append, List.append_assoc]
  · obtain ⟨s0, r0, rfl⟩ : ∃ s0 r0, segs = s0 :: r0 := by
      cases segs with
      | nil => exact absurd rfl hsne
      | cons s0 r0 => exact ⟨s0, r0, rfl⟩
    have hpne : joinSegs (s0 :: r0) ≠ "" :=
      joinSegs_ne_empty s0 r0 (hscl s0 (List.mem_cons_self s0 r0)).1
    rw [if_neg hpne]
    show filepathJoin (joinSegs (s0 :: r0) :: [ns, n, p]) = _
    rw [filepathJoin_cons_ne _ _ hpne, joinSegs_cons_cons,
      ← joinSegs_append (s0 :: r0) [ns, n, p] (by simp) (by simp)]
    have hall : ∀ s ∈ (s0 :: r0) ++ [ns, n, p], cleanSeg s := by
      intro s hs
      rcases List.mem_append.mp hs with h | h
      · exact hscl s h
      · exact htriple s h
    rw [pathClean_joinSegs _ (by simp) hall,
      joinSegs_append (s0 :: r0) [ns, n, p] (by simp) (by simp)]
    apply String.ext
    simp [joinSegs, String.data_append, List.append_assoc]

/-- C5 witness: the amended statement at the prefix `modules` and the
triple (acme, vpc, aws). -/
theorem resolveModulePath_spec_witness :
    resolveModulePath "modules" "acme" "vpc" "aws" = "modules/acme/vpc/aws" := by
  have h := resolveModulePath_spec "modules" "acme" "vpc" "aws"
    (by decide) (by decide) (by decide)
    (Or.inr ⟨["modules"], by simp, by decide, rfl⟩)
  rw [if_neg (by decide)] at h
  exact h.trans (by decide)

/-- C6: a request below `/download/` whose stripped remainder is a clean,
non-index file path is answered from storage at exactly that key: status
200 and the stored bytes as the body, under the forced headers
`Content-Type: application/x-gzip` and
`Content-Encoding: application/octet-stream`, when the key holds content;
status 404 with the generic not-found body when it is absent. -/
theorem httpGetModule_fileServer (fsys : FSys) (rest contents : String)
    (hne : rest ≠ "")
    (hclean : pathClean ("/" ++ rest) = "/" ++ rest)
    (hidx : ("/index.html").data.isSuffixOf ("/" ++ rest).data = false) :
    (fsys.readFile rest = some contents →
      (httpGetModule fsys ("/download/" ++ rest)).finalStatus = 200 ∧
      (httpGetModule fsys ("/download/" ++ rest)).body = contents ∧
      headersGet (httpGetModule fsys ("/download/" ++ rest)).finalHeaders "Content-Type" =
        some "application/x-gzip" ∧
      headersGet (httpGetModule fsys ("/download/" ++ rest)).finalHeaders "Content-Encoding" =
        some "application/octet-stream") ∧
    (fsys.readFile rest = none →
      (httpGetModule fsys ("/download/" ++ rest)).finalStatus = 404 ∧
      (httpGetModule fsys ("/download/" ++ rest)).body = "404 page not found\n") := by
  have hslash : ("/" ++ rest : String) ≠ "/" := by
    intro h
    apply hne
    apply String.ext
    have h2 := congrArg String.data h
    rw [String.data_append] at h2
    simpa using h2
  have hw : httpGetModule fsys ("/download/" ++ rest) =
      (match fsys.readFile rest with
       | some c =>
         ((RespWriter.init.headerSet "Content-Encoding"
           "application/octet-stream").headerSet "Content-Type" "application/x-gzip").write c
       | none =>
         httpNotFound ((RespWriter.init.headerSet "Content-Encoding"
           "application/octet-stream").headerSet "Content-Type" "application/x-gzip")) := by
    unfold httpGetModule
    rw [stripPre_append "/download/" rest]
    simp only [hidx, Bool.false_eq_true, if_false, hclean]
    rw [if_neg hslash, stripPre_append "/" rest]
    rfl
  refine ⟨fun hsome => ?_, fun hnone => ?_⟩
  · rw [hw, hsome]
    exact ⟨rfl, by rfl, rfl, rfl⟩
  · rw [hw, hnone]
    exact ⟨rfl, by rfl⟩

/-- C6 witness: the single-artifact backend serves the stored bytes at the
artifact key and 404s on an absent key. -/
theorem httpGetModule_fileServer_witness :
    (httpGetModule fsysArtifact "/download/acme/vpc/aws/1.0.0/vpc.tgz").finalStatus = 200 ∧
    (httpGetModule fsysArtifact "/download/acme/vpc/aws/1.0.0/vpc.tgz").body = "GZBYTES" ∧
    (httpGetModule fsysArtifact "/download/missing/mod.tgz").finalStatus = 404 := by
  have h1 := httpGetModule_fileServer fsysArtifact "acme/vpc/aws/1.0.0/vpc.tgz" "GZBYTES"
    (by decide) (by decide) (by decide)
  have h2 := httpGetModule_fileServer fsysArtifact "missing/mod.tgz" "x"
    (by decide) (by decide) (by decide)
  exact ⟨(h1.1 rfl).1, (h1.1 rfl).2.1, (h2.2 rfl).1⟩

/-- C7 counterexample: a HEAD request — a method other than GET — is
dispatched by the router (via the `GetHead` middleware) to the discovery
handler, so it is false that only GET reaches the registered handlers. -/
theorem router_head_dispatches :
    dispatchTarget "HEAD" "/" = RouteTarget.discovery ∧
    app ⟨"bucket", ""⟩ fsysAbsent "HEAD" "/" = httpGetServiceDiscovery := by
  exact ⟨by rfl, by rfl⟩

/-- C7 (amended): requests whose method is neither GET nor HEAD are
dispatched to none of the five registered handlers (HEAD reaches the GET
handlers through the `GetHead` middleware), and a path matching no route
— heartbeat aside — receives the generic not-found response. -/
theorem router_method_policy :
    (∀ method path : String, method ≠ "GET" → method ≠ "HEAD" →
      dispatchTarget method path = RouteTarget.noMatch) ∧
    (∀ (cfg : Config) (fsys : FSys) (method path : String),
      matchRoute path = RouteTarget.noMatch →
      ¬((method = "GET" ∨ method = "HEAD") ∧ lowerStr path = "/is_alive") →
      (app cfg fsys method path).finalStatus = 404 ∧
      (app cfg fsys method path).body = "404 page not found\n") := by
  constructor
  · intro method path h1 h2
    unfold dispatchTarget
    rw [if_neg (fun hc => hc.1.elim h1 h2)]
    cases hm : matchRoute path <;> simp [h1, h2]
  · intro cfg fsys method path hnm hhb
    have hd : dispatchTarget method path = RouteTarget.noMatch := by
      unfold dispatchTarget
      rw [if_neg hhb, hnm]
    have happ : app cfg fsys method path = httpNotFound RespWriter.init := by
      unfold app
      rw [if_neg hhb, hd]
      exact if_pos hnm
    rw [happ]
    exact ⟨rfl, by rfl⟩

/-- C7 witness: a POST to `/` dispatches no handler, and an unmatched path
gets the 404 response. -/
theorem router_method_policy_witness :
    dispatchTarget "POST" "/" = RouteTarget.noMatch ∧
    (app ⟨"bucket", ""⟩ fsysAbsent "DELETE" "/nothing/here").finalStatus = 404 :=
  ⟨router_method_policy.1 "POST" "/" (by decide) (by decide),
   (router_method_policy.2 ⟨"bucket", ""⟩ fsysAbsent "DELETE" "/nothing/here"
     (by rfl) (by decide)).1⟩

end TfRegistry

